import Mathlib

/-!
Verification of lixiang117423/KEGG_Plants, file scrape_kegg.py.

The script scrapes the KEGG website: get_organism_list parses a table of
organisms from a listing page, get_pathway_data_for_organism fetches and
parses the per-organism pathway page (bold headers, nested unordered lists
and bare text nodes) with a retry loop, and main orchestrates the crawl and
writes a CSV.

We embed the parsed-HTML data model (BeautifulSoup trees) as a nested
inductive of element and text nodes, and translate each Python function
into a Lean function over that model.  Network fetches are abstracted as
oracles (the spec treats HTTP as a capability "fetch(url) -> bytes or
failure").  A Python exception escaping a function is modelled as
Except.error; the only uncaught exception reachable in the source is the
KeyError raised by a_tag["href"] when a link has no href attribute
(the except clause of the retry loop catches RequestException only).
-/

/-- Configuration constant BASE_URL from scrape_kegg.py line 9. -/
def BASE_URL : String := "https://www.kegg.jp"

/-- Configuration constant START_URL from scrape_kegg.py line 10. -/
def START_URL : String :=
  "https://www.kegg.jp/kegg-bin/show_organism?menu_type=category_info&category=Plants"

/-- Configuration constant RETRY_COUNT from scrape_kegg.py line 16. -/
def RETRY_COUNT : Nat := 3

/-- Configuration constant RETRY_DELAY (seconds) from scrape_kegg.py line 17. -/
def RETRY_DELAY : Nat := 5

/-- Python str.strip on our character model: drop whitespace from both ends. -/
def pyStrip (s : String) : String :=
  ⟨((s.data.dropWhile Char.isWhitespace).reverse.dropWhile Char.isWhitespace).reverse⟩

/-- A node of a parsed HTML document: a bare text node (NavigableString)
or an element (Tag) with a tag name, attributes and a child list. -/
inductive Node where
  | text (s : String)
  | elem (tag : String) (attrs : List (String × String)) (children : List Node)

mutual

/-- All descendant text-node contents of a node list, in document order
(the strings underlying BeautifulSoup get_text). -/
def textsOf : List Node → List String
  | [] => []
  | c :: rest => textsOfH c ++ textsOf rest

/-- Text-node contents contributed by one node. -/
def textsOfH : Node → List String
  | .text s => [s]
  | .elem _ _ cs => textsOf cs

end

/-- BeautifulSoup get_text(strip=True): each descendant string stripped and
joined (strings that strip to the empty string contribute nothing to the
concatenation either way). -/
def getTextStrip (cs : List Node) : String :=
  String.join ((textsOf cs).map pyStrip)

mutual

/-- soup.find_all(tag) over a node list: the child lists of all descendant
elements with the given tag name, in document (preorder) order. -/
def findAllChildren (tag : String) : List Node → List (List Node)
  | [] => []
  | c :: rest => findAllChildrenH tag c ++ findAllChildren tag rest

/-- find_all contribution of a single node: the node itself when it is an
element with the given tag, then its matching descendants. -/
def findAllChildrenH (tag : String) : Node → List (List Node)
  | .text _ => []
  | .elem t _ cs => (if t = tag then [cs] else []) ++ findAllChildren tag cs

end

mutual

/-- soup.find_all("b") keeping sibling context: every descendant b element,
in document order, paired with (its child list, its following siblings).
The following siblings are what find_next_sibling later scans. -/
def collectB : List Node → List (List Node × List Node)
  | [] => []
  | c :: rest => collectBH c rest ++ collectB rest

/-- collectB contribution of one node given its following siblings. -/
def collectBH : Node → List Node → List (List Node × List Node)
  | .text _, _ => []
  | .elem t _ cs, rest => (if t = "b" then [(cs, rest)] else []) ++ collectB cs

end

mutual

/-- element.find_all("a") keeping the immediately preceding sibling of each
hit: every descendant a element, in document order, as a triple
(attributes, child list, previous_sibling).  The first parameter is the
previous sibling of the head of the node list (none for a first child). -/
def collectA : Option Node →
    List Node → List (List (String × String) × List Node × Option Node)
  | _, [] => []
  | prev, c :: rest => collectAH prev c ++ collectA (some c) rest

/-- collectA contribution of one node given its previous sibling. -/
def collectAH : Option Node →
    Node → List (List (String × String) × List Node × Option Node)
  | _, .text _ => []
  | prev, .elem t attrs cs => (if t = "a" then [(attrs, cs, prev)] else []) ++ collectA none cs

end

/-- One row of the pathway table, scrape_kegg.py lines 95-102. -/
structure PathwayRecord where
  organismName : String
  level1 : String
  level2 : String
  pathwayId : String
  pathwayName : String
  url : String
deriving DecidableEq, Repr

/-- scrape_kegg.py lines 89-93: the KEGG id token.  The previous sibling
must be truthy (a NavigableString is falsy exactly when empty) and a
NavigableString; then the token is its stripped text, else "N/A". -/
def keggIdOf : Option Node → String
  | some (.text s) => if s = "" then "N/A" else pyStrip s
  | _ => "N/A"

/-- scrape_kegg.py lines 84-102: the loop over a_tag in element.find_all("a"),
acting on the collected (attrs, children, previous sibling) triples.
a_tag["href"] raises KeyError when the attribute is absent, which no
except clause catches: modelled as Except.error. -/
def linksToRecords (latin l1 l2 : String) :
    List (List (String × String) × List Node × Option Node) →
    Except String (List PathwayRecord)
  | [] => .ok []
  | (attrs, acs, prev) :: rest =>
      match attrs.lookup "href" with
      | none => .error "KeyError: href"
      | some href =>
          match linksToRecords latin l1 l2 rest with
          | .error e => .error e
          | .ok more => .ok ({ organismName := latin, level1 := l1, level2 := l2,
                               pathwayId := "ko" ++ keggIdOf prev,
                               pathwayName := getTextStrip acs,
                               url := BASE_URL ++ href } :: more)

/-- scrape_kegg.py lines 74-102: the loop over outer_ul.children.  The
second string argument is the running current_l2 value; a bare text node
with non-whitespace content updates it, a nested ul element contributes the
records of all links found within it. -/
def processUlChildren (latin l1 : String) :
    String → List Node → Except String (List PathwayRecord)
  | _, [] => .ok []
  | l2, .text s :: rest =>
      if pyStrip s = "" then processUlChildren latin l1 l2 rest
      else processUlChildren latin l1 (pyStrip s) rest
  | l2, .elem t _ cs :: rest =>
      if t = "ul" then
        match linksToRecords latin l1 l2 (collectA none cs) with
        | .error e => .error e
        | .ok recs =>
            match processUlChildren latin l1 l2 rest with
            | .error e => .error e
            | .ok more => .ok (recs ++ more)
      else processUlChildren latin l1 l2 rest

/-- l1_tag.find_next_sibling("ul"), scrape_kegg.py line 70: the first
following sibling that is a ul element (returning its child list). -/
def findNextSiblingUl : List Node → Option (List Node)
  | [] => none
  | .text _ :: rest => findNextSiblingUl rest
  | .elem t _ cs :: rest => if t = "ul" then some cs else findNextSiblingUl rest

/-- scrape_kegg.py lines 66-102, body of the loop over one l1_tag: compute
current_l1 from the header children, look for the next ul sibling, skip
(continue) when there is none, else process its children. -/
def headerRecords (latin : String) (bcs sibs : List Node) :
    Except String (List PathwayRecord) :=
  match findNextSiblingUl sibs with
  | none => .ok []
  | some ulcs => processUlChildren latin (getTextStrip bcs) "" ulcs

/-- scrape_kegg.py lines 64-103: the loop over all found b headers,
concatenating each header's records in document order. -/
def processHeaders (latin : String) :
    List (List Node × List Node) → Except String (List PathwayRecord)
  | [] => .ok []
  | (bcs, sibs) :: rest =>
      match headerRecords latin bcs sibs with
      | .error e => .error e
      | .ok recs =>
          match processHeaders latin rest with
          | .error e => .error e
          | .ok more => .ok (recs ++ more)

/-- Parsing of one successfully fetched pathway page (scrape_kegg.py
lines 58-105): a page is the list of top-level nodes of the parsed tree. -/
def parsePathways (latin : String) (page : List Node) :
    Except String (List PathwayRecord) :=
  processHeaders latin (collectB page)

/-- Outcome of one fetch attempt: a transport failure (connection error,
timeout, non-2xx status — everything raise_for_status / RequestException
covers) or a successfully fetched and parsed page. -/
inductive Fetch where
  | failure
  | success (page : List Node)

/-- The per-organism pathway page URL, scrape_kegg.py line 51. -/
def pathway_url (org_code : String) : String :=
  BASE_URL ++ "/kegg-bin/show_organism?menu_type=pathway_maps&org=" ++ org_code

/-- The retry loop of scrape_kegg.py lines 54-115, from a given attempt
index with the given number of loop iterations remaining.  Returns the
function result (Except.error models an uncaught exception) together with
the number of fetch attempts performed and the number of RETRY_DELAY
sleeps executed.  When the loop runs out of iterations the function falls
through to return [] (line 115). -/
def attemptsFrom (latin : String) (fetch : Nat → Fetch) :
    Nat → Nat → Except String (List PathwayRecord) × Nat × Nat
  | _, 0 => (.ok [], 0, 0)
  | attempt, fuel + 1 =>
      match fetch attempt with
      | .success page => (parsePathways latin page, 1, 0)
      | .failure =>
          let r := attemptsFrom latin fetch (attempt + 1) fuel
          (r.1, r.2.1 + 1, if attempt < RETRY_COUNT - 1 then r.2.2 + 1 else r.2.2)

/-- scrape_kegg.py lines 46-115: fetch the pathway page for one organism
with up to RETRY_COUNT attempts and parse it.  The fetch oracle maps a URL
and an attempt index to that attempt's outcome. -/
def get_pathway_data_for_organism (org_code latin_name : String)
    (fetch : String → Nat → Fetch) :
    Except String (List PathwayRecord) × Nat × Nat :=
  attemptsFrom latin_name (fetch (pathway_url org_code)) 0 RETRY_COUNT

/-- An organism entry, scrape_kegg.py line 39. -/
structure Organism where
  code : String
  name : String
deriving DecidableEq, Repr

/-- scrape_kegg.py lines 34-39: the loop over table rows; a row with at
least three td cells yields (text of cell 1, text of cell 2). -/
def orgRows : List (List Node) → List Organism
  | [] => []
  | rowCs :: rest =>
      match findAllChildren "td" rowCs with
      | _ :: c1 :: c2 :: _ =>
          { code := getTextStrip c1, name := getTextStrip c2 } :: orgRows rest
      | _ => orgRows rest

/-- scrape_kegg.py lines 20-44: fetch the listing page and extract the
organism list; on transport failure or a page without tr rows return []. -/
def get_organism_list : Fetch → List Organism
  | .failure => []
  | .success page =>
      let rows := findAllChildren "tr" page
      if rows.isEmpty then [] else orgRows rows

/-- The fixed six-column row written to the CSV, in the order of
scrape_kegg.py lines 148-155. -/
def recordToRow (r : PathwayRecord) :
    String × String × String × String × String × String :=
  (r.organismName, r.level1, r.level2, r.pathwayId, r.pathwayName, r.url)

/-- len(series.unique()) for a column given as a list: the number of
distinct values. -/
def uniqueCount (l : List String) : Nat := l.dedup.length

/-- Observable outcome of main: early return with no organisms (line 124),
early return with no collected data (line 143), or a written file with the
reported distinct-organism count and total record count (lines 157-160). -/
inductive MainOutcome where
  | noOrganisms
  | noData
  | written (rows : List (String × String × String × String × String × String))
      (distinctOrganisms : Nat) (totalRecords : Nat)
deriving DecidableEq, Repr

/-- scrape_kegg.py lines 129-139: the organism loop, accumulating records;
an uncaught exception from the extractor propagates (Except.error). -/
def mainLoop (fetch : String → Nat → Fetch) :
    List Organism → List PathwayRecord → Except String (List PathwayRecord)
  | [], acc => .ok acc
  | o :: rest, acc =>
      match (get_pathway_data_for_organism o.code o.name fetch).1 with
      | .error e => .error e
      | .ok pd => mainLoop fetch rest (if pd.isEmpty then acc else acc ++ pd)

/-- scrape_kegg.py lines 117-160: the function main (the name main is
reserved in Lean for an IO entry point), over the two fetch oracles
(listing page, pathway pages). -/
def run_main (listFetch : Fetch) (fetch : String → Nat → Fetch) :
    Except String MainOutcome :=
  let organisms := get_organism_list listFetch
  if organisms.isEmpty then .ok .noOrganisms
  else
    match mainLoop fetch organisms [] with
    | .error e => .error e
    | .ok acc =>
        if acc.isEmpty then .ok .noData
        else .ok (.written (acc.map recordToRow)
            (uniqueCount (acc.map PathwayRecord.organismName)) acc.length)

/-- Whether a node is a list (ul) element. -/
def isUl : Node → Bool
  | .text _ => false
  | .elem t _ _ => t = "ul"

mutual

/-- Every a element in a node list carries an href attribute. -/
def linksOk : List Node → Bool
  | [] => true
  | c :: rest => linksOkH c && linksOk rest

/-- Every a element in one node carries an href attribute. -/
def linksOkH : Node → Bool
  | .text _ => true
  | .elem t attrs cs => (t != "a" || (attrs.lookup "href").isSome) && linksOk cs

end

/-- Modelled from the spec (section 4.2, ordering invariant): the running
subcategory value after scanning a child prefix — the stripped text of the
most recent bare text node with non-whitespace content, else the initial
value. -/
def level2At : String → List Node → String
  | init, [] => init
  | init, .text s :: rest => level2At (if pyStrip s = "" then init else pyStrip s) rest
  | init, .elem _ _ _ :: rest => level2At init rest

mutual

/-- Every link triple collected from a list whose a elements all carry
href has a successful href lookup. -/
theorem collectA_href : ∀ (prev : Option Node) (l : List Node), linksOk l = true →
    ∀ t ∈ collectA prev l, ((t.1).lookup "href").isSome = true
  | _, [], _, t, ht => by simp [collectA] at ht
  | prev, c :: rest, h, t, ht => by
      have hh : linksOkH c = true ∧ linksOk rest = true := by
        simpa [linksOk, Bool.and_eq_true] using h
      rw [collectA, List.mem_append] at ht
      rcases ht with ht | ht
      · exact collectAH_href prev c hh.1 t ht
      · exact collectA_href (some c) rest hh.2 t ht

/-- collectA_href, single-node version. -/
theorem collectAH_href : ∀ (prev : Option Node) (c : Node), linksOkH c = true →
    ∀ t ∈ collectAH prev c, ((t.1).lookup "href").isSome = true
  | _, .text _, _, t, ht => by simp [collectAH] at ht
  | prev, .elem tg attrs cs, h, t, ht => by
      have hh : (tg != "a" || (attrs.lookup "href").isSome) = true ∧ linksOk cs = true := by
        simpa [linksOkH, Bool.and_eq_true] using h
      rw [collectAH, List.mem_append] at ht
      rcases ht with ht | ht
      · by_cases htg : tg = "a"
        · subst htg
          simp at ht
          subst ht
          simpa using hh.1
        · simp [htg] at ht
      · exact collectA_href none cs hh.2 t ht

end

mutual

/-- The sibling list attached to every collected b header inherits the
all-links-have-href property. -/
theorem collectB_sibs : ∀ (l : List Node), linksOk l = true →
    ∀ p ∈ collectB l, linksOk p.2 = true
  | [], _, p, hp => by simp [collectB] at hp
  | c :: rest, h, p, hp => by
      have hh : linksOkH c = true ∧ linksOk rest = true := by
        simpa [linksOk, Bool.and_eq_true] using h
      rw [collectB, List.mem_append] at hp
      rcases hp with hp | hp
      · exact collectBH_sibs c rest hh.1 hh.2 p hp
      · exact collectB_sibs rest hh.2 p hp

/-- collectB_sibs, single-node version. -/
theorem collectBH_sibs : ∀ (c : Node) (rest : List Node), linksOkH c = true →
    linksOk rest = true → ∀ p ∈ collectBH c rest, linksOk p.2 = true
  | .text _, _, _, _, p, hp => by simp [collectBH] at hp
  | .elem tg attrs cs, rest, hc, hr, p, hp => by
      have hh : linksOk cs = true := by
        have := by simpa [linksOkH, Bool.and_eq_true] using hc
        exact this.2
      rw [collectBH, List.mem_append] at hp
      rcases hp with hp | hp
      · by_cases htg : tg = "b"
        · subst htg
          simp at hp
          simp [hp, hr]
        · simp [htg] at hp
      · exact collectB_sibs cs hh p hp

end

/-- When no following sibling is a ul element, find_next_sibling("ul")
returns none. -/
theorem findNextSiblingUl_eq_none : ∀ (sibs : List Node),
    (∀ n ∈ sibs, isUl n = false) → findNextSiblingUl sibs = none
  | [], _ => rfl
  | .text _ :: rest, h => by
      rw [findNextSiblingUl]
      exact findNextSiblingUl_eq_none rest (fun n hn => h n (by simp [hn]))
  | .elem t attrs cs :: rest, h => by
      have ht : (t = "ul") = False := by
        simpa [isUl] using h (.elem t attrs cs) (by simp)
      rw [findNextSiblingUl, if_neg (by simp [ht])]
      exact findNextSiblingUl_eq_none rest (fun n hn => h n (by simp [hn]))

/-- find_next_sibling("ul") returns the first ul among the following
siblings. -/
theorem findNextSiblingUl_first : ∀ (pre : List Node) (attrs : List (String × String))
    (cs post : List Node), (∀ n ∈ pre, isUl n = false) →
    findNextSiblingUl (pre ++ .elem "ul" attrs cs :: post) = some cs
  | [], attrs, cs, post, _ => by rw [List.nil_append, findNextSiblingUl, if_pos rfl]
  | .text _ :: pre, attrs, cs, post, h => by
      rw [List.cons_append, findNextSiblingUl]
      exact findNextSiblingUl_first pre attrs cs post (fun n hn => h n (by simp [hn]))
  | .elem t a2 c2 :: pre, attrs, cs, post, h => by
      have ht : (t = "ul") = False := by
        simpa [isUl] using h (.elem t a2 c2) (by simp)
      rw [List.cons_append, findNextSiblingUl, if_neg (by simp [ht])]
      exact findNextSiblingUl_first pre attrs cs post (fun n hn => h n (by simp [hn]))

/-- When every following sibling of a ul element keeps the link property,
so does the ul that find_next_sibling returns. -/
theorem findNextSiblingUl_linksOk : ∀ (sibs : List Node), linksOk sibs = true →
    ∀ ulcs, findNextSiblingUl sibs = some ulcs → linksOk ulcs = true
  | [], _, ulcs, h2 => by simp [findNextSiblingUl] at h2
  | .text _ :: rest, h, ulcs, h2 => by
      rw [findNextSiblingUl] at h2
      have hh : linksOk rest = true := by
        have := by simpa [linksOk, Bool.and_eq_true] using h
        exact this.2
      exact findNextSiblingUl_linksOk rest hh ulcs h2
  | .elem t attrs cs :: rest, h, ulcs, h2 => by
      have hh : linksOkH (.elem t attrs cs) = true ∧ linksOk rest = true := by
        simpa [linksOk, Bool.and_eq_true] using h
      rw [findNextSiblingUl] at h2
      by_cases ht : t = "ul"
      · rw [if_pos ht] at h2
        cases h2
        have := by simpa [linksOkH, Bool.and_eq_true] using hh.1
        exact this.2
      · rw [if_neg ht] at h2
        exact findNextSiblingUl_linksOk rest hh.2 ulcs h2

/-- The link loop succeeds when every collected link lookup succeeds. -/
theorem linksToRecords_ok (latin l1 l2 : String) :
    ∀ trips, (∀ t ∈ trips, ((t.1).lookup "href").isSome = true) →
    ∃ recs, linksToRecords latin l1 l2 trips = .ok recs
  | [], _ => ⟨[], rfl⟩
  | (attrs, acs, prev) :: rest, h => by
      obtain ⟨more, hm⟩ := linksToRecords_ok latin l1 l2 rest
        (fun t ht => h t (by simp [ht]))
      have hs : ((attrs.lookup "href").isSome) = true := h (attrs, acs, prev) (by simp)
      rcases hl : attrs.lookup "href" with _ | href
      · rw [hl] at hs
        simp at hs
      · exact ⟨_, by rw [linksToRecords, hl, hm]⟩

/-- Every record built by the link loop carries the ambient organism name,
level 1, level 2, and a ko-prefixed id. -/
theorem linksToRecords_mem (latin l1 l2 : String) :
    ∀ trips recs, linksToRecords latin l1 l2 trips = .ok recs →
    ∀ r ∈ recs, r.organismName = latin ∧ r.level1 = l1 ∧ r.level2 = l2 ∧
      ∃ t, r.pathwayId = "ko" ++ t
  | [], recs, h, r, hr => by
      rw [linksToRecords] at h
      cases h
      simp at hr
  | (attrs, acs, prev) :: rest, recs, h, r, hr => by
      rw [linksToRecords] at h
      rcases hl : attrs.lookup "href" with _ | href <;> rw [hl] at h
      · cases h
      · rcases hm : linksToRecords latin l1 l2 rest with e | more <;> rw [hm] at h
        · cases h
        · cases h
          rcases List.mem_cons.mp hr with hr | hr
          · subst hr
            exact ⟨rfl, rfl, rfl, keggIdOf prev, rfl⟩
          · exact linksToRecords_mem latin l1 l2 rest more hm r hr

/-- The loop over a ul's children succeeds when every nested a element has
an href. -/
theorem processUlChildren_ok (latin l1 : String) :
    ∀ (l : List Node) (l2 : String), linksOk l = true →
    ∃ recs, processUlChildren latin l1 l2 l = .ok recs
  | [], _, _ => ⟨[], rfl⟩
  | .text s :: rest, l2, h => by
      have hh : linksOkH (.text s) = true ∧ linksOk rest = true := by
        simpa [linksOk, Bool.and_eq_true] using h
      rw [processUlChildren]
      by_cases hs : pyStrip s = ""
      · rw [if_pos hs]
        exact processUlChildren_ok latin l1 rest l2 hh.2
      · rw [if_neg hs]
        exact processUlChildren_ok latin l1 rest (pyStrip s) hh.2
  | .elem t attrs cs :: rest, l2, h => by
      have hh : linksOkH (.elem t attrs cs) = true ∧ linksOk rest = true := by
        simpa [linksOk, Bool.and_eq_true] using h
      have hcs : linksOk cs = true := by
        have h3 : (t != "a" || (attrs.lookup "href").isSome) = true ∧ linksOk cs = true := by
          simpa [linksOkH, Bool.and_eq_true] using hh.1
        exact h3.2
      rw [processUlChildren]
      by_cases ht : t = "ul"
      · rw [if_pos ht]
        obtain ⟨ys, hy⟩ := linksToRecords_ok latin l1 l2 (collectA none cs)
          (collectA_href none cs hcs)
        obtain ⟨more, hm⟩ := processUlChildren_ok latin l1 rest l2 hh.2
        rw [hy, hm]
        exact ⟨_, rfl⟩
      · rw [if_neg ht]
        exact processUlChildren_ok latin l1 rest l2 hh.2

/-- Every record emitted while scanning a ul's children carries the
ambient organism name, the header's level 1, and a ko-prefixed id. -/
theorem processUlChildren_mem (latin l1 : String) :
    ∀ (l : List Node) (l2 : String) (recs : List PathwayRecord),
    processUlChildren latin l1 l2 l = .ok recs →
    ∀ r ∈ recs, r.organismName = latin ∧ r.level1 = l1 ∧ ∃ t, r.pathwayId = "ko" ++ t
  | [], _, recs, h, r, hr => by
      rw [processUlChildren] at h
      cases h
      simp at hr
  | .text s :: rest, l2, recs, h, r, hr => by
      rw [processUlChildren] at h
      by_cases hs : pyStrip s = ""
      · rw [if_pos hs] at h
        exact processUlChildren_mem latin l1 rest l2 recs h r hr
      · rw [if_neg hs] at h
        exact processUlChildren_mem latin l1 rest (pyStrip s) recs h r hr
  | .elem t attrs cs :: rest, l2, recs, h, r, hr => by
      rw [processUlChildren] at h
      by_cases ht : t = "ul"
      · rw [if_pos ht] at h
        rcases hy : linksToRecords latin l1 l2 (collectA none cs) with e | ys <;> rw [hy] at h
        · cases h
        · rcases hm : processUlChildren latin l1 l2 rest with e | more <;> rw [hm] at h
          · cases h
          · cases h
            rcases List.mem_append.mp hr with hr | hr
            · obtain ⟨h1, h2, _, h4⟩ :=
                linksToRecords_mem latin l1 l2 (collectA none cs) ys hy r hr
              exact ⟨h1, h2, h4⟩
            · exact processUlChildren_mem latin l1 rest l2 more hm r hr
      · rw [if_neg ht] at h
        exact processUlChildren_mem latin l1 rest l2 recs h r hr

/-- Splitting the scan of a ul's children: the records of the suffix are
computed with the running subcategory value reached at the end of the
prefix (level2At). -/
theorem processUl_append (latin l1 : String) (pre : List Node) :
    ∀ (l2 : String) (rest : List Node),
    processUlChildren latin l1 l2 (pre ++ rest) =
      match processUlChildren latin l1 l2 pre with
      | .error e => .error e
      | .ok xs =>
          match processUlChildren latin l1 (level2At l2 pre) rest with
          | .error e => .error e
          | .ok ys => .ok (xs ++ ys) := by
  induction pre with
  | nil =>
      intro l2 rest
      rcases h : processUlChildren latin l1 l2 rest with e | ys <;>
        simp [processUlChildren, level2At, h]
  | cons c pre ih =>
      intro l2 rest
      cases c with
      | text s =>
          by_cases hs : pyStrip s = ""
          · rw [List.cons_append, processUlChildren, if_pos hs]
            conv_rhs => rw [processUlChildren, if_pos hs, level2At, if_pos hs]
            exact ih l2 rest
          · rw [List.cons_append, processUlChildren, if_neg hs]
            conv_rhs => rw [processUlChildren, if_neg hs, level2At, if_neg hs]
            exact ih (pyStrip s) rest
      | elem t attrs cs =>
          by_cases ht : t = "ul"
          · subst ht
            rw [List.cons_append, processUlChildren, if_pos rfl]
            conv_rhs => rw [processUlChildren, if_pos rfl, level2At]
            rw [ih l2 rest]
            rcases hy : linksToRecords latin l1 l2 (collectA none cs) with e | ys <;>
              rcases hp : processUlChildren latin l1 l2 pre with e2 | xs <;>
                rcases hr : processUlChildren latin l1 (level2At l2 pre) rest with e3 | zs <;>
                  simp [hy, hp, hr]
          · rw [List.cons_append, processUlChildren, if_neg ht]
            conv_rhs => rw [processUlChildren, if_neg ht, level2At]
            exact ih l2 rest

/-- Processing one header succeeds when its following siblings keep the
link property. -/
theorem headerRecords_ok (latin : String) (bcs sibs : List Node)
    (h : linksOk sibs = true) : ∃ recs, headerRecords latin bcs sibs = .ok recs := by
  rw [headerRecords]
  rcases hf : findNextSiblingUl sibs with _ | ulcs
  · exact ⟨[], rfl⟩
  · exact processUlChildren_ok latin (getTextStrip bcs) ulcs ""
      (findNextSiblingUl_linksOk sibs h ulcs hf)

/-- Every record a header contributes carries the organism name, the
header's stripped text as level 1, and a ko-prefixed id. -/
theorem headerRecords_mem (latin : String) (bcs sibs : List Node)
    (recs : List PathwayRecord) (h : headerRecords latin bcs sibs = .ok recs) :
    ∀ r ∈ recs, r.organismName = latin ∧ r.level1 = getTextStrip bcs ∧
      ∃ t, r.pathwayId = "ko" ++ t := by
  rw [headerRecords] at h
  rcases hf : findNextSiblingUl sibs with _ | ulcs <;> rw [hf] at h
  · cases h
    simp
  · exact processUlChildren_mem latin (getTextStrip bcs) ulcs "" recs h

/-- The header loop succeeds when every header's sibling list keeps the
link property. -/
theorem processHeaders_ok (latin : String) :
    ∀ pairs, (∀ p ∈ pairs, linksOk p.2 = true) →
    ∃ recs, processHeaders latin pairs = .ok recs
  | [], _ => ⟨[], rfl⟩
  | (bcs, sibs) :: rest, h => by
      obtain ⟨recs, h1⟩ := headerRecords_ok latin bcs sibs (h (bcs, sibs) (by simp))
      obtain ⟨more, h2⟩ := processHeaders_ok latin rest (fun p hp => h p (by simp [hp]))
      rw [processHeaders, h1, h2]
      exact ⟨_, rfl⟩

/-- Every record of the header loop belongs to some collected header and
carries that header's stripped text as level 1. -/
theorem processHeaders_mem (latin : String) :
    ∀ pairs recs, processHeaders latin pairs = .ok recs →
    ∀ r ∈ recs, ∃ p ∈ pairs, r.organismName = latin ∧ r.level1 = getTextStrip p.1 ∧
      ∃ t, r.pathwayId = "ko" ++ t
  | [], recs, h, r, hr => by
      rw [processHeaders] at h
      cases h
      simp at hr
  | (bcs, sibs) :: rest, recs, h, r, hr => by
      rw [processHeaders] at h
      rcases h1 : headerRecords latin bcs sibs with e | xs <;> rw [h1] at h
      · cases h
      · rcases h2 : processHeaders latin rest with e | more <;> rw [h2] at h
        · cases h
        · cases h
          rcases List.mem_append.mp hr with hr | hr
          · obtain ⟨ha, hb, hc⟩ := headerRecords_mem latin bcs sibs xs h1 r hr
            exact ⟨(bcs, sibs), by simp, ha, hb, hc⟩
          · obtain ⟨p, hp, hs⟩ := processHeaders_mem latin rest more h2 r hr
            exact ⟨p, by simp [hp], hs⟩

/-- Parsing succeeds on any page whose a elements all carry href. -/
theorem parsePathways_ok (latin : String) (page : List Node)
    (h : linksOk page = true) : ∃ recs, parsePathways latin page = .ok recs :=
  processHeaders_ok latin (collectB page) (collectB_sibs page h)

/-- Every parsed record belongs to some collected b header. -/
theorem parsePathways_mem (latin : String) (page : List Node)
    (recs : List PathwayRecord) (h : parsePathways latin page = .ok recs) :
    ∀ r ∈ recs, ∃ p ∈ collectB page, r.organismName = latin ∧
      r.level1 = getTextStrip p.1 ∧ ∃ t, r.pathwayId = "ko" ++ t :=
  processHeaders_mem latin (collectB page) recs h

/-- One failed attempt: the result is that of the rest of the loop, one
more attempt, and one more sleep when this attempt is not the last. -/
theorem attemptsFrom_fail_step (latin : String) (f : Nat → Fetch) (a fuel : Nat)
    (h : f a = .failure) :
    attemptsFrom latin f a (fuel + 1) =
      ((attemptsFrom latin f (a + 1) fuel).1,
       (attemptsFrom latin f (a + 1) fuel).2.1 + 1,
       if a < RETRY_COUNT - 1 then (attemptsFrom latin f (a + 1) fuel).2.2 + 1
       else (attemptsFrom latin f (a + 1) fuel).2.2) := by
  rw [attemptsFrom, h]

/-- One successful attempt ends the loop: the parse result, one attempt,
no sleep. -/
theorem attemptsFrom_success_step (latin : String) (f : Nat → Fetch) (a fuel : Nat)
    (page : List Node) (h : f a = .success page) :
    attemptsFrom latin f a (fuel + 1) = (parsePathways latin page, 1, 0) := by
  rw [attemptsFrom, h]

/-- The loop never raises when every successfully fetched page keeps the
link property. -/
theorem attemptsFrom_ok (latin : String) (f : Nat → Fetch)
    (h : ∀ n page, f n = .success page → linksOk page = true) :
    ∀ (fuel a : Nat), ∃ recs, (attemptsFrom latin f a fuel).1 = .ok recs
  | 0, _ => ⟨[], rfl⟩
  | fuel + 1, a => by
      rcases hf : f a with _ | page
      · obtain ⟨recs, hr⟩ := attemptsFrom_ok latin f h fuel (a + 1)
        rw [attemptsFrom_fail_step latin f a fuel hf]
        exact ⟨recs, hr⟩
      · rw [attemptsFrom_success_step latin f a fuel page hf]
        exact parsePathways_ok latin page (h a page hf)

/-- When every attempt fails, the loop returns [] after RETRY_COUNT
attempts and RETRY_COUNT - 1 sleeps. -/
theorem attemptsFrom_exhausted (latin : String) (f : Nat → Fetch)
    (h : ∀ n, n < RETRY_COUNT → f n = .failure) :
    attemptsFrom latin f 0 RETRY_COUNT = (.ok [], RETRY_COUNT, RETRY_COUNT - 1) := by
  have h0 : f 0 = .failure := h 0 (by decide)
  have h1 : f 1 = .failure := h 1 (by decide)
  have h2 : f 2 = .failure := h 2 (by decide)
  have e2 : attemptsFrom latin f 2 1 = (.ok [], 1, 0) := by
    rw [show (1 : Nat) = 0 + 1 from rfl, attemptsFrom_fail_step latin f 2 0 h2]
    simp [attemptsFrom, RETRY_COUNT]
  have e1 : attemptsFrom latin f 1 2 = (.ok [], 2, 1) := by
    rw [show (2 : Nat) = 1 + 1 from rfl, attemptsFrom_fail_step latin f 1 1 h1]
    simp [e2, RETRY_COUNT]
  have e0 : attemptsFrom latin f 0 3 = (.ok [], 3, 2) := by
    rw [show (3 : Nat) = 2 + 1 from rfl, attemptsFrom_fail_step latin f 0 2 h0]
    simp [e1, RETRY_COUNT]
  simpa [RETRY_COUNT] using e0

/-- The loop against a stub that fails exactly on the first k attempts,
k below RETRY_COUNT: the parse result of the page, after k + 1 attempts
and k sleeps. -/
theorem attemptsFrom_stub (latin : String) (page : List Node) (k : Nat)
    (hk : k < RETRY_COUNT) :
    attemptsFrom latin (fun n => if n < k then Fetch.failure else .success page)
      0 RETRY_COUNT = (parsePathways latin page, k + 1, k) := by
  have hk3 : k < 3 := by simpa [RETRY_COUNT] using hk
  show attemptsFrom latin _ 0 3 = _
  interval_cases k
  · rw [show (3 : Nat) = 2 + 1 from rfl,
      attemptsFrom_success_step latin _ 0 2 page rfl]
  · rw [show (3 : Nat) = 2 + 1 from rfl,
      attemptsFrom_fail_step latin _ 0 2 rfl]
    rw [show (2 : Nat) = 1 + 1 from rfl,
      attemptsFrom_success_step latin _ (0 + 1) 1 page rfl]
    simp [RETRY_COUNT]
  · rw [show (3 : Nat) = 2 + 1 from rfl,
      attemptsFrom_fail_step latin _ 0 2 rfl]
    rw [show (2 : Nat) = 1 + 1 from rfl,
      attemptsFrom_fail_step latin _ (0 + 1) 1 rfl]
    rw [show (1 : Nat) = 0 + 1 from rfl,
      attemptsFrom_success_step latin _ (0 + 1 + 1) 0 page rfl]
    simp [RETRY_COUNT]

/-- Unfolding of run_main: the header guard, the loop, the emptiness
guard and the written outcome. -/
theorem run_main_eq (fl : Fetch) (fetch : String → Nat → Fetch) :
    run_main fl fetch =
      if (get_organism_list fl).isEmpty then .ok .noOrganisms
      else match mainLoop fetch (get_organism_list fl) [] with
        | .error e => .error e
        | .ok acc =>
            if acc.isEmpty then .ok .noData
            else .ok (.written (acc.map recordToRow)
                (uniqueCount (acc.map PathwayRecord.organismName)) acc.length) := rfl

/-- C1 (counterexample): on a page containing a link element with no href
attribute, get_pathway_data_for_organism propagates a KeyError to its
caller instead of returning a sequence — the retry loop catches
RequestException only. -/
theorem claim1_counterexample :
    (get_pathway_data_for_organism "osa" "Oryza sativa"
      (fun _ _ => .success [.elem "b" [] [.text "Metabolism"],
        .elem "ul" [] [.elem "ul" [] [.elem "a" [] [.text "Glycolysis"]]]])).1 =
      .error "KeyError: href" := rfl

/-- C1 (amended): for every organism code, display name and fetch
behaviour, provided every successfully fetched page's link elements all
carry an href attribute, get_pathway_data_for_organism returns a sequence
of records without propagating any error; and on exhausted retries (every
attempt a transport failure) it returns the empty sequence, after
RETRY_COUNT attempts and RETRY_COUNT - 1 sleeps. -/
theorem claim1_no_raise_amended (org_code latin_name : String)
    (fetch : String → Nat → Fetch)
    (h : ∀ n page, fetch (pathway_url org_code) n = .success page → linksOk page = true) :
    (∃ recs, (get_pathway_data_for_organism org_code latin_name fetch).1 = .ok recs)
    ∧ ((∀ n, n < RETRY_COUNT → fetch (pathway_url org_code) n = .failure) →
        get_pathway_data_for_organism org_code latin_name fetch =
          (.ok [], RETRY_COUNT, RETRY_COUNT - 1)) := by
  constructor
  · exact attemptsFrom_ok latin_name (fetch (pathway_url org_code)) h RETRY_COUNT 0
  · intro h2
    exact attemptsFrom_exhausted latin_name (fetch (pathway_url org_code)) h2

/-- C1 witness: a run whose fetches all fail returns the empty sequence
and raises nothing. -/
theorem claim1_witness :
    (∃ recs, (get_pathway_data_for_organism "ath" "Arabidopsis thaliana"
        (fun _ _ => .failure)).1 = .ok recs)
    ∧ get_pathway_data_for_organism "ath" "Arabidopsis thaliana" (fun _ _ => .failure) =
        (.ok [], RETRY_COUNT, RETRY_COUNT - 1) := by
  have h := claim1_no_raise_amended "ath" "Arabidopsis thaliana" (fun _ _ => .failure)
    (fun n page hp => by cases hp)
  exact ⟨h.1, h.2 (fun n _ => rfl)⟩

/-- C2 (counterexample): a page whose bold header is immediately followed
by a p element (not a list element) still contributes a record, drawn from
a ul element further along among the header's siblings — the claim says
such a header contributes no records. -/
theorem claim2_counterexample :
    parsePathways "Lat" [.elem "b" [] [.text "H"], .elem "p" [] [],
        .elem "ul" [] [.elem "ul" [] [.text "00010 ",
          .elem "a" [("href", "/x")] [.text "NAME"]]]] =
      .ok [{ organismName := "Lat", level1 := "H", level2 := "",
             pathwayId := "ko00010", pathwayName := "NAME",
             url := "https://www.kegg.jp/x" }]
    ∧ isUl (Node.elem "p" [] []) = false := ⟨rfl, rfl⟩

/-- C2 (amended): a header contributes no records exactly when no list
element occurs anywhere among its following siblings; when a first ul
sibling exists (possibly after intervening non-ul siblings), the header's
records are drawn from that first ul. -/
theorem claim2_first_ul (latin : String) (bcs sibs : List Node) :
    ((∀ n ∈ sibs, isUl n = false) → headerRecords latin bcs sibs = .ok [])
    ∧ (∀ (pre : List Node) (attrs : List (String × String)) (cs post : List Node),
        sibs = pre ++ .elem "ul" attrs cs :: post → (∀ n ∈ pre, isUl n = false) →
        headerRecords latin bcs sibs =
          processUlChildren latin (getTextStrip bcs) "" cs) := by
  constructor
  · intro h
    rw [headerRecords, findNextSiblingUl_eq_none sibs h]
  · intro pre attrs cs post hs hpre
    subst hs
    rw [headerRecords, findNextSiblingUl_first pre attrs cs post hpre]

/-- C2 witness: a header followed only by a p element contributes nothing;
a header followed directly by a ul is processed from that ul's children. -/
theorem claim2_witness :
    headerRecords "Lat" [Node.text "H"] [.elem "p" [] []] = .ok []
    ∧ headerRecords "Lat" [Node.text "H"] [.elem "ul" [] []] =
        processUlChildren "Lat" (getTextStrip [Node.text "H"]) "" [] :=
  ⟨(claim2_first_ul "Lat" [Node.text "H"] [.elem "p" [] []]).1 (by decide),
   (claim2_first_ul "Lat" [Node.text "H"] [.elem "ul" [] []]).2 [] [] [] []
     rfl (by decide)⟩

/-- C3 (counterexample): a bold header whose text content is whitespace
only produces records whose level1 field is the empty string — the claim
says every emitted record has non-empty level1 on any markup. -/
theorem claim3_counterexample :
    parsePathways "Lat" [.elem "b" [] [.text "   "],
        .elem "ul" [] [.elem "ul" [] [.text "00010 ",
          .elem "a" [("href", "/x")] [.text "NAME"]]]] =
      .ok [{ organismName := "Lat", level1 := "", level2 := "",
             pathwayId := "ko00010", pathwayName := "NAME",
             url := "https://www.kegg.jp/x" }] := rfl

/-- C3 (amended): provided every bold header found on the page has
non-empty stripped text content, every emitted PathwayRecord has a
non-empty level1 field. -/
theorem claim3_level1_amended (latin : String) (page : List Node)
    (recs : List PathwayRecord)
    (hbold : ∀ p ∈ collectB page, getTextStrip p.1 ≠ "")
    (hok : parsePathways latin page = .ok recs) :
    ∀ r ∈ recs, r.level1 ≠ "" := by
  intro r hr
  obtain ⟨p, hp, _, hl, _⟩ := parsePathways_mem latin page recs hok r hr
  rw [hl]
  exact hbold p hp

/-- C3 witness: on a page with one non-whitespace header, the single
emitted record has non-empty level1. -/
theorem claim3_witness :
    ({ organismName := "X", level1 := "M", level2 := "", pathwayId := "koN/A",
       pathwayName := "G", url := "https://www.kegg.jp/x" } : PathwayRecord).level1 ≠ "" :=
  claim3_level1_amended "X"
    [.elem "b" [] [.text "M"],
     .elem "ul" [] [.elem "ul" [] [.elem "a" [("href", "/x")] [.text "G"]]]]
    [{ organismName := "X", level1 := "M", level2 := "", pathwayId := "koN/A",
       pathwayName := "G", url := "https://www.kegg.jp/x" }]
    (by decide) rfl
    { organismName := "X", level1 := "M", level2 := "", pathwayId := "koN/A",
      pathwayName := "G", url := "https://www.kegg.jp/x" } (by simp)

/-- C4 (confirmed): against a fetch stub failing on exactly the first k
attempts, when k < RETRY_COUNT the extraction succeeds after exactly
min(k+1, RETRY_COUNT) attempts with k sleeps (one after each failed
non-final attempt); when k >= RETRY_COUNT it performs exactly RETRY_COUNT
attempts and returns the empty sequence.  The success page is assumed to
keep the all-links-have-href property so that parsing succeeds. -/
theorem claim4_retry_bound (org_code latin_name : String) (page : List Node)
    (k : Nat) (hp : linksOk page = true) :
    (k < RETRY_COUNT →
      ∃ recs, get_pathway_data_for_organism org_code latin_name
          (fun _ n => if n < k then Fetch.failure else .success page) =
        (.ok recs, min (k + 1) RETRY_COUNT, k))
    ∧ (RETRY_COUNT ≤ k →
      get_pathway_data_for_organism org_code latin_name
          (fun _ n => if n < k then Fetch.failure else .success page) =
        (.ok [], RETRY_COUNT, RETRY_COUNT - 1)) := by
  constructor
  · intro hk
    obtain ⟨recs, hr⟩ := parsePathways_ok latin_name page hp
    refine ⟨recs, ?_⟩
    have hmin : min (k + 1) RETRY_COUNT = k + 1 := by
      simp only [RETRY_COUNT] at hk ⊢
      omega
    rw [hmin]
    show attemptsFrom latin_name
      (fun n => if n < k then Fetch.failure else .success page) 0 RETRY_COUNT = _
    rw [attemptsFrom_stub latin_name page k hk, hr]
  · intro hk
    show attemptsFrom latin_name
      (fun n => if n < k then Fetch.failure else .success page) 0 RETRY_COUNT = _
    refine attemptsFrom_exhausted latin_name _ (fun n hn => ?_)
    have hnk : n < k := by
      simp only [RETRY_COUNT] at hn hk
      omega
    simp [hnk]

/-- C4 witness: with k = 1 the stub run succeeds after 2 attempts and 1
sleep; with k = 5 it returns [] after 3 attempts. -/
theorem claim4_witness :
    (∃ recs, get_pathway_data_for_organism "ath" "Arabidopsis"
        (fun _ n => if n < 1 then Fetch.failure else .success []) =
      (.ok recs, min (1 + 1) RETRY_COUNT, 1))
    ∧ get_pathway_data_for_organism "ath" "Arabidopsis"
        (fun _ n => if n < 5 then Fetch.failure else .success []) =
      (.ok [], RETRY_COUNT, RETRY_COUNT - 1) :=
  ⟨(claim4_retry_bound "ath" "Arabidopsis" [] 1 rfl).1 (by decide),
   (claim4_retry_bound "ath" "Arabidopsis" [] 5 rfl).2 (by decide)⟩

/-- C5 (confirmed): scanning a ul's children with initial subcategory "",
the records contributed by a nested ul child are built with the level2
value reached at the end of the preceding children (the stripped text of
the most recent non-whitespace bare text node, initially "" — level2At);
and concretely, children [text A, list with link L1, text B, list with
link L2] yield L1's record with level2 = A and L2's record with
level2 = B. -/
theorem claim5_subcategory (latin l1 : String) :
    (∀ (pre : List Node) (attrs : List (String × String)) (cs post : List Node),
      processUlChildren latin l1 "" (pre ++ .elem "ul" attrs cs :: post) =
        match processUlChildren latin l1 "" pre with
        | .error e => .error e
        | .ok xs =>
            match linksToRecords latin l1 (level2At "" pre) (collectA none cs) with
            | .error e => .error e
            | .ok ys =>
                match processUlChildren latin l1 (level2At "" pre) post with
                | .error e => .error e
                | .ok zs => .ok (xs ++ ys ++ zs))
    ∧ processUlChildren "Org" "Meta" ""
        [.text "A", .elem "ul" [] [.elem "a" [("href", "/1")] [.text "L1"]],
         .text "B", .elem "ul" [] [.elem "a" [("href", "/2")] [.text "L2"]]] =
      .ok [{ organismName := "Org", level1 := "Meta", level2 := "A",
             pathwayId := "koN/A", pathwayName := "L1",
             url := "https://www.kegg.jp/1" },
           { organismName := "Org", level1 := "Meta", level2 := "B",
             pathwayId := "koN/A", pathwayName := "L2",
             url := "https://www.kegg.jp/2" }] := by
  constructor
  · intro pre attrs cs post
    rw [processUl_append latin l1 pre "" (.elem "ul" attrs cs :: post)]
    rcases hp : processUlChildren latin l1 "" pre with e | xs <;> simp only [hp]
    rw [processUlChildren, if_pos rfl]
    rcases hy : linksToRecords latin l1 (level2At "" pre) (collectA none cs) with e | ys <;>
      simp only [hy]
    rcases hz : processUlChildren latin l1 (level2At "" pre) post with e | zs <;>
      simp only [hz]
    simp [List.append_assoc]
  · rfl

/-- C6 (confirmed): every emitted record's pathwayId is the prefix literal
"ko" followed by some token; and a link whose previous sibling is absent
or is an element (not a bare text node) is still emitted, as the head of
the loop's output, with pathwayId "ko" ++ "N/A". -/
theorem claim6_ko_and_fallback :
    (∀ (latin : String) (page : List Node) (recs : List PathwayRecord),
        parsePathways latin page = .ok recs →
        ∀ r ∈ recs, ∃ t, r.pathwayId = "ko" ++ t)
    ∧ (∀ (latin l1 l2 : String) (prev : Option Node)
        (attrs : List (String × String)) (acs rest : List Node)
        (href : String) (recs : List PathwayRecord),
        (prev = none ∨ ∃ tg ats cs2, prev = some (.elem tg ats cs2)) →
        attrs.lookup "href" = some href →
        linksToRecords latin l1 l2 (collectA prev (.elem "a" attrs acs :: rest)) =
          .ok recs →
        ∃ rs, recs = { organismName := latin, level1 := l1, level2 := l2,
                       pathwayId := "ko" ++ "N/A", pathwayName := getTextStrip acs,
                       url := BASE_URL ++ href } :: rs) := by
  constructor
  · intro latin page recs h r hr
    obtain ⟨p, _, _, _, ht⟩ := parsePathways_mem latin page recs h r hr
    exact ht
  · intro latin l1 l2 prev attrs acs rest href recs hprev hhref hok
    have hc : collectA prev (.elem "a" attrs acs :: rest) =
        (attrs, acs, prev) ::
          (collectA none acs ++ collectA (some (.elem "a" attrs acs)) rest) := by
      rw [collectA, collectAH, if_pos rfl]
      simp
    rw [hc] at hok
    simp only [linksToRecords, hhref] at hok
    rcases hm : linksToRecords latin l1 l2
        (collectA none acs ++ collectA (some (.elem "a" attrs acs)) rest)
      with e | more <;> rw [hm] at hok
    · cases hok
    · cases hok
      have hid : keggIdOf prev = "N/A" := by
        rcases hprev with h1 | ⟨tg, ats, cs2, h1⟩ <;> subst h1 <;> rfl
      exact ⟨more, by rw [hid]⟩

/-- C6 witness: a parsed record's id carries the ko prefix, and a link
with no previous sibling is emitted with id koN/A. -/
theorem claim6_witness :
    (∃ t, ({ organismName := "X", level1 := "M", level2 := "", pathwayId := "koN/A",
             pathwayName := "G", url := "https://www.kegg.jp/x" } : PathwayRecord).pathwayId =
        "ko" ++ t)
    ∧ ∃ rs, [({ organismName := "X", level1 := "M", level2 := "",
                pathwayId := "ko" ++ "N/A", pathwayName := "G",
                url := "https://www.kegg.jp/x" } : PathwayRecord)] =
        { organismName := "X", level1 := "M", level2 := "",
          pathwayId := "ko" ++ "N/A", pathwayName := getTextStrip [Node.text "G"],
          url := BASE_URL ++ "/x" } :: rs :=
  ⟨claim6_ko_and_fallback.1 "X"
      [.elem "b" [] [.text "M"],
       .elem "ul" [] [.elem "ul" [] [.elem "a" [("href", "/x")] [.text "G"]]]]
      [{ organismName := "X", level1 := "M", level2 := "", pathwayId := "koN/A",
         pathwayName := "G", url := "https://www.kegg.jp/x" }] rfl
      { organismName := "X", level1 := "M", level2 := "", pathwayId := "koN/A",
        pathwayName := "G", url := "https://www.kegg.jp/x" } (by simp),
   claim6_ko_and_fallback.2 "X" "M" "" none [("href", "/x")] [.text "G"] [] "/x"
      [{ organismName := "X", level1 := "M", level2 := "",
         pathwayId := "ko" ++ "N/A", pathwayName := "G",
         url := "https://www.kegg.jp/x" }] (Or.inl rfl) rfl rfl⟩

/-- C9 (confirmed): a link whose previous sibling is a non-empty bare text
node consisting only of whitespace is emitted with pathwayId exactly "ko"
(prefix plus empty token), not the sentinel; and for every non-empty bare
text-node sibling the id token is its stripped text, so the sentinel is
only used when the sibling is absent or not a bare text node (parsed pages
never contain empty text nodes). -/
theorem claim9_whitespace_token :
    (∀ (latin l1 l2 s : String) (attrs : List (String × String))
        (acs rest : List Node) (href : String) (recs : List PathwayRecord),
        s ≠ "" → pyStrip s = "" → attrs.lookup "href" = some href →
        linksToRecords latin l1 l2
          (collectA (some (.text s)) (.elem "a" attrs acs :: rest)) = .ok recs →
        ∃ rs, recs = { organismName := latin, level1 := l1, level2 := l2,
                       pathwayId := "ko", pathwayName := getTextStrip acs,
                       url := BASE_URL ++ href } :: rs)
    ∧ (∀ s : String, s ≠ "" → keggIdOf (some (.text s)) = pyStrip s) := by
  constructor
  · intro latin l1 l2 s attrs acs rest href recs hs hstrip hhref hok
    have hc : collectA (some (.text s)) (.elem "a" attrs acs :: rest) =
        (attrs, acs, some (.text s)) ::
          (collectA none acs ++ collectA (some (.elem "a" attrs acs)) rest) := by
      rw [collectA, collectAH, if_pos rfl]
      simp
    rw [hc] at hok
    simp only [linksToRecords, hhref] at hok
    rcases hm : linksToRecords latin l1 l2
        (collectA none acs ++ collectA (some (.elem "a" attrs acs)) rest)
      with e | more <;> rw [hm] at hok
    · cases hok
    · cases hok
      have hid : keggIdOf (some (Node.text s)) = "" := by
        rw [keggIdOf, if_neg hs, hstrip]
      refine ⟨more, ?_⟩
      rw [hid, String.append_empty]
  · intro s hs
    rw [keggIdOf, if_neg hs]

/-- C9 witness: a link preceded by the text node " " is emitted with
pathwayId "ko", and the token of a non-empty text node is its stripped
text. -/
theorem claim9_witness :
    (∃ rs, [({ organismName := "X", level1 := "M", level2 := "",
               pathwayId := "ko", pathwayName := "G",
               url := "https://www.kegg.jp/x" } : PathwayRecord)] =
        { organismName := "X", level1 := "M", level2 := "",
          pathwayId := "ko", pathwayName := getTextStrip [Node.text "G"],
          url := BASE_URL ++ "/x" } :: rs)
    ∧ keggIdOf (some (Node.text " ")) = pyStrip " " :=
  ⟨claim9_whitespace_token.1 "X" "M" "" " " [("href", "/x")] [.text "G"] [] "/x"
      [{ organismName := "X", level1 := "M", level2 := "",
         pathwayId := "ko", pathwayName := "G",
         url := "https://www.kegg.jp/x" }] (by decide) (by decide) rfl rfl,
   claim9_whitespace_token.2 " " (by decide)⟩

/-- The row loop of get_organism_list is the row-wise filterMap keeping,
for each row with at least three td cells, the pair built from cells 1
and 2. -/
theorem orgRows_filterMap : ∀ rows : List (List Node),
    orgRows rows = rows.filterMap (fun rowCs =>
      match findAllChildren "td" rowCs with
      | _ :: c1 :: c2 :: _ => some { code := getTextStrip c1, name := getTextStrip c2 }
      | _ => none)
  | [] => rfl
  | rowCs :: rest => by
      rcases hc : findAllChildren "td" rowCs with _ | ⟨c0, cr0⟩
      · simp [orgRows, hc, orgRows_filterMap rest]
      · rcases cr0 with _ | ⟨c1, cr1⟩
        · simp [orgRows, hc, orgRows_filterMap rest]
        · rcases cr1 with _ | ⟨c2, cr2⟩
          · simp [orgRows, hc, orgRows_filterMap rest]
          · simp [orgRows, hc, orgRows_filterMap rest]

/-- C7 (confirmed): for every fetched listing page, get_organism_list is
exactly the row-wise extraction keeping, for each tr row with at least
three td cells, the pair (stripped text of cell 1, stripped text of
cell 2) as (code, name); rows with fewer cells contribute nothing, the
order of rows is preserved (filterMap), and the number of organisms is at
most the number of rows. -/
theorem claim7_lister (page : List Node) :
    get_organism_list (.success page) =
      (findAllChildren "tr" page).filterMap (fun rowCs =>
        match findAllChildren "td" rowCs with
        | _ :: c1 :: c2 :: _ => some { code := getTextStrip c1, name := getTextStrip c2 }
        | _ => none)
    ∧ (get_organism_list (.success page)).length ≤ (findAllChildren "tr" page).length := by
  have hmain : get_organism_list (.success page) =
      (findAllChildren "tr" page).filterMap (fun rowCs =>
        match findAllChildren "td" rowCs with
        | _ :: c1 :: c2 :: _ => some { code := getTextStrip c1, name := getTextStrip c2 }
        | _ => none) := by
    rcases he : findAllChildren "tr" page with _ | ⟨r0, rs⟩
    · simp [get_organism_list, he]
    · have : get_organism_list (.success page) = orgRows (findAllChildren "tr" page) := by
        simp [get_organism_list, he]
      rw [this, he, orgRows_filterMap]
  refine ⟨hmain, ?_⟩
  rw [hmain]
  exact List.length_filterMap_le _ _

/-- C8 (confirmed): when the organism list is empty main stops with the
no-organisms diagnostic and writes nothing; when the loop completes with
an empty accumulator it stops with the warning and writes nothing; only a
non-empty accumulator is written, as the six-column rows in the fixed
order, and every written outcome has a non-empty row list. -/
theorem claim8_output_guard (fl : Fetch) (fetch : String → Nat → Fetch) :
    (get_organism_list fl = [] → run_main fl fetch = .ok .noOrganisms)
    ∧ (∀ acc, get_organism_list fl ≠ [] →
        mainLoop fetch (get_organism_list fl) [] = .ok acc →
        (acc = [] → run_main fl fetch = .ok .noData)
        ∧ (acc ≠ [] → run_main fl fetch = .ok (.written (acc.map recordToRow)
            (uniqueCount (acc.map PathwayRecord.organismName)) acc.length)))
    ∧ (∀ rows d t, run_main fl fetch = .ok (.written rows d t) → rows ≠ []) := by
  refine ⟨?_, ?_, ?_⟩
  · intro h
    rw [run_main_eq, h]
    rfl
  · intro acc hne hacc
    have he : (get_organism_list fl).isEmpty = false := by
      rcases hx : get_organism_list fl with _ | ⟨o, os⟩
      · exact absurd hx hne
      · rfl
    constructor
    · intro h0
      subst h0
      simp [run_main_eq, he, hacc]
    · intro hne2
      have ha : acc.isEmpty = false := by
        rcases hx : acc with _ | ⟨r, rs⟩
        · exact absurd hx hne2
        · rfl
      simp [run_main_eq, he, hacc, ha]
  · intro rows d t h
    rw [run_main_eq] at h
    cases hq : (get_organism_list fl).isEmpty
    · rw [hq] at h
      simp only [Bool.false_eq_true, if_false] at h
      rcases hm : mainLoop fetch (get_organism_list fl) [] with e | acc <;> simp only [hm] at h
      · cases h
      · cases ha : acc.isEmpty
        · rw [ha] at h
          simp only [Bool.false_eq_true, if_false] at h
          have hrows : acc.map recordToRow = rows := by
            cases h
            rfl
          have hane : acc ≠ [] := by
            intro h0
            rw [h0] at ha
            simp at ha
          rw [← hrows]
          simpa using hane
        · rw [ha] at h
          simp at h
    · rw [hq] at h
      simp at h

/-- C8 witness: a failed listing fetch stops with no-organisms; a listing
with one organism and failing pathway fetches stops with the warning and
no written output; a successful crawl writes the six-column rows. -/
theorem claim8_witness :
    run_main .failure (fun _ _ => .failure) = .ok .noOrganisms
    ∧ run_main (.success [.elem "tr" [] [.elem "td" [] [], .elem "td" [] [.text "ath"],
        .elem "td" [] [.text "Arabidopsis"]]]) (fun _ _ => .failure) = .ok .noData
    ∧ run_main (.success [.elem "tr" [] [.elem "td" [] [], .elem "td" [] [.text "ath"],
        .elem "td" [] [.text "Arabidopsis"]]])
      (fun _ _ => .success [.elem "b" [] [.text "M"],
        .elem "ul" [] [.elem "ul" [] [.elem "a" [("href", "/p")] [.text "G"]]]]) =
      .ok (.written [("Arabidopsis", "M", "", "koN/A", "G", "https://www.kegg.jp/p")] 1 1) :=
  ⟨(claim8_output_guard .failure (fun _ _ => .failure)).1 rfl,
   ((claim8_output_guard (.success [.elem "tr" [] [.elem "td" [] [],
        .elem "td" [] [.text "ath"], .elem "td" [] [.text "Arabidopsis"]]])
      (fun _ _ => .failure)).2.1 [] (by decide) rfl).1 rfl,
   ((claim8_output_guard (.success [.elem "tr" [] [.elem "td" [] [],
        .elem "td" [] [.text "ath"], .elem "td" [] [.text "Arabidopsis"]]])
      (fun _ _ => .success [.elem "b" [] [.text "M"],
        .elem "ul" [] [.elem "ul" [] [.elem "a" [("href", "/p")] [.text "G"]]]])).2.1
      [{ organismName := "Arabidopsis", level1 := "M", level2 := "",
         pathwayId := "koN/A", pathwayName := "G", url := "https://www.kegg.jp/p" }]
      (by decide) rfl).2 (by decide)⟩

/-- C10 (confirmed): the distinct-organism count reported by a successful
run is the number of distinct organism display names among the collected
records (pandas unique on the Organism Latin Name column), not the number
of distinct organism codes; concretely, two organisms with different codes
but the same display name that both contribute records are counted once. -/
theorem claim10_distinct_names :
    (∀ (fl : Fetch) (fetch : String → Nat → Fetch) rows d t,
      run_main fl fetch = .ok (.written rows d t) →
      ∃ acc, mainLoop fetch (get_organism_list fl) [] = .ok acc ∧
        d = (acc.map PathwayRecord.organismName).dedup.length ∧ t = acc.length)
    ∧ run_main (.success [.elem "tr" [] [.elem "td" [] [], .elem "td" [] [.text "c1"],
          .elem "td" [] [.text "Same"]],
        .elem "tr" [] [.elem "td" [] [], .elem "td" [] [.text "c2"],
          .elem "td" [] [.text "Same"]]])
      (fun _ _ => .success [.elem "b" [] [.text "M"],
        .elem "ul" [] [.elem "ul" [] [.elem "a" [("href", "/p")] [.text "G"]]]]) =
      .ok (.written [("Same", "M", "", "koN/A", "G", "https://www.kegg.jp/p"),
                     ("Same", "M", "", "koN/A", "G", "https://www.kegg.jp/p")] 1 2) := by
  constructor
  · intro fl fetch rows d t h
    rw [run_main_eq] at h
    cases hq : (get_organism_list fl).isEmpty
    · rw [hq] at h
      simp only [Bool.false_eq_true, if_false] at h
      rcases hm : mainLoop fetch (get_organism_list fl) [] with e | acc <;> simp only [hm] at h
      · cases h
      · cases ha : acc.isEmpty
        · rw [ha] at h
          simp only [Bool.false_eq_true, if_false] at h
          cases h
          exact ⟨acc, rfl, rfl, rfl⟩
        · rw [ha] at h
          simp at h
    · rw [hq] at h
      simp at h
  · rfl

/-- C10 witness: in the two-codes-one-name run, the reported count 1 is
the number of distinct display names among the two collected records. -/
theorem claim10_witness :
    ∃ acc, mainLoop
        (fun _ _ => .success [.elem "b" [] [.text "M"],
          .elem "ul" [] [.elem "ul" [] [.elem "a" [("href", "/p")] [.text "G"]]]])
        (get_organism_list (.success [.elem "tr" [] [.elem "td" [] [],
            .elem "td" [] [.text "c1"], .elem "td" [] [.text "Same"]],
          .elem "tr" [] [.elem "td" [] [], .elem "td" [] [.text "c2"],
            .elem "td" [] [.text "Same"]]])) [] = .ok acc ∧
      (1 : Nat) = (acc.map PathwayRecord.organismName).dedup.length ∧
      (2 : Nat) = acc.length :=
  claim10_distinct_names.1 _ _ _ 1 2 claim10_distinct_names.2
